import Mathlib

/-!
Verification development for the memongo library (Go): a shallow embedding of
its version/artifact resolution, download-cache, extraction, startup-log
classification, and teardown logic, with theorems checking the natural-language
specification against the embedded code.

Strings from the Go source are ASCII throughout, so a Go byte slice of a string
is embedded as the list of code points of its characters.
-/

set_option maxRecDepth 100000

/-- Byte representation of an ASCII string (Go: []byte(s)). -/
def strBytes (s : String) : List Nat :=
  s.toList.map Char.toNat

/-- Truncation to a 32-bit word. -/
def w32 (x : Nat) : Nat := x % 4294967296

/-- Right rotation of a 32-bit word by n bits. -/
def rotr (n x : Nat) : Nat := w32 ((x >>> n) ||| (x <<< (32 - n)))

/-- SHA-256 round constants (FIPS 180-4, written in decimal). -/
def shaK : List Nat :=
  [1116352408, 1899447441, 3049323471, 3921009573, 961987163, 1508970993,
   2453635748, 2870763221, 3624381080, 310598401, 607225278, 1426881987,
   1925078388, 2162078206, 2614888103, 3248222580, 3835390401, 4022224774,
   264347078, 604807628, 770255983, 1249150122, 1555081692, 1996064986,
   2554220882, 2821834349, 2952996808, 3210313671, 3336571891, 3584528711,
   113926993, 338241895, 666307205, 773529912, 1294757372, 1396182291,
   1695183700, 1986661051, 2177026350, 2456956037, 2730485921, 2820302411,
   3259730800, 3345764771, 3516065817, 3600352804, 4094571909, 275423344,
   430227734, 506948616, 659060556, 883997877, 958139571, 1322822218,
   1537002063, 1747873779, 1955562222, 2024104815, 2227730452, 2361852424,
   2428436474, 2756734187, 3204031479, 3329325298]

/-- SHA-256 initial hash state (FIPS 180-4, written in decimal). -/
def shaInitH : List Nat :=
  [1779033703, 3144134277, 1013904242, 2773480762,
   1359893119, 2600822924, 528734635, 1541459225]

/-- Big-endian 8-byte encoding of a length in bits. -/
def lenBytes64 (n : Nat) : List Nat :=
  [(n >>> 56) % 256, (n >>> 48) % 256, (n >>> 40) % 256, (n >>> 32) % 256,
   (n >>> 24) % 256, (n >>> 16) % 256, (n >>> 8) % 256, n % 256]

/-- SHA-256 message padding: append 0x80, zeros to 56 mod 64, then the bit length. -/
def shaPad (msg : List Nat) : List Nat :=
  let len := msg.length
  let padZeros := (119 - len % 64) % 64
  msg ++ [0x80] ++ List.replicate padZeros 0 ++ lenBytes64 (8 * len)

/-- Group bytes into big-endian 32-bit words. -/
def bytesToWords : List Nat → List Nat
  | a :: b :: c :: d :: rest =>
      (a * 16777216 + b * 65536 + c * 256 + d) :: bytesToWords rest
  | _ => []

/-- Split a list into chunks of 64 elements (fuel-driven so it reduces in the kernel). -/
def chunksAux : Nat → List Nat → List (List Nat)
  | 0, _ => []
  | _, [] => []
  | fuel + 1, x :: rest => (x :: rest.take 63) :: chunksAux fuel (rest.drop 63)

/-- Split a list into chunks of 64 elements. -/
def chunks64 (l : List Nat) : List (List Nat) :=
  chunksAux l.length l

/-- SHA-256 small sigma 0. -/
def shaSigma0 (x : Nat) : Nat := (rotr 7 x) ^^^ (rotr 18 x) ^^^ (x >>> 3)

/-- SHA-256 small sigma 1. -/
def shaSigma1 (x : Nat) : Nat := (rotr 17 x) ^^^ (rotr 19 x) ^^^ (x >>> 10)

/-- SHA-256 big sigma 0. -/
def shaBigSigma0 (x : Nat) : Nat := (rotr 2 x) ^^^ (rotr 13 x) ^^^ (rotr 22 x)

/-- SHA-256 big sigma 1. -/
def shaBigSigma1 (x : Nat) : Nat := (rotr 6 x) ^^^ (rotr 11 x) ^^^ (rotr 25 x)

/-- Extend the 16-word block to the 64-word message schedule (n remaining words). -/
def extendSchedule : Nat → Array Nat → Array Nat
  | 0, w => w
  | n + 1, w =>
      let t := w.size
      let next := w32 (shaSigma1 (w.getD (t - 2) 0) + w.getD (t - 7) 0 +
                       shaSigma0 (w.getD (t - 15) 0) + w.getD (t - 16) 0)
      extendSchedule n (w.push next)

/-- One SHA-256 compression round on the 8-word working state. -/
def shaRound (st : List Nat) (k : Nat) (w : Nat) : List Nat :=
  match st with
  | [a, b, c, d, e, f, g, h] =>
      let ch := (e &&& f) ^^^ ((4294967295 - e) &&& g)
      let maj := (a &&& b) ^^^ (a &&& c) ^^^ (b &&& c)
      let t1 := w32 (h + shaBigSigma1 e + ch + k + w)
      let t2 := w32 (shaBigSigma0 a + maj)
      [w32 (t1 + t2), a, b, c, w32 (d + t1), e, f, g]
  | other => other

/-- Process one 64-byte block, updating the 8-word hash state. -/
def shaBlock (h : List Nat) (block : List Nat) : List Nat :=
  let w0 := Array.mk (bytesToWords block)
  let w := extendSchedule 48 w0
  let final := (List.zip shaK w.toList).foldl (fun st kw => shaRound st kw.1 kw.2) h
  List.zipWith (fun x y => w32 (x + y)) h final

/-- SHA-256 digest (32 bytes) of a byte list. -/
def sha256Bytes (msg : List Nat) : List Nat :=
  let padded := shaPad msg
  let final := (chunks64 padded).foldl shaBlock shaInitH
  final.flatMap (fun x => [(x >>> 24) % 256, (x >>> 16) % 256, (x >>> 8) % 256, x % 256])

/-- Lowercase hex digit for a value below 16. -/
def hexDigit (n : Nat) : Char :=
  if n < 10 then Char.ofNat (48 + n) else Char.ofNat (87 + n)

/-- Lowercase hex encoding of a byte list as characters (Go: hex.EncodeToString). -/
def hexChars (bytes : List Nat) : List Char :=
  bytes.flatMap (fun b => [hexDigit (b / 16), hexDigit (b % 16)])

/-- The first 10 hex characters of the SHA-256 of a string (Go: shahex[0:10]). -/
def sha256First10 (s : String) : String :=
  String.mk ((hexChars (sha256Bytes (strBytes s))).take 10)

/-- Split a character list at every occurrence of a separator (Go: strings.Split
    with a one-character separator; the empty input yields one empty field). -/
def splitCharsOn (sep : Char) : List Char → List (List Char)
  | [] => [[]]
  | c :: rest =>
    let r := splitCharsOn sep rest
    if c == sep then [] :: r
    else
      match r with
      | h :: t => (c :: h) :: t
      | [] => [[c]]

/-- Decimal digit test. -/
def isDigitChar (c : Char) : Bool :=
  48 ≤ c.toNat && c.toNat ≤ 57

/-- Accumulate decimal digits into a number; fails on any non-digit. -/
def digitsToNatAux : Nat → List Char → Option Nat
  | acc, [] => some acc
  | acc, c :: rest =>
      if isDigitChar c then digitsToNatAux (acc * 10 + (c.toNat - 48)) rest
      else none

/-- Value of a nonempty all-digit character list. -/
def digitsToNat : List Char → Option Nat
  | [] => none
  | l => digitsToNatAux 0 l

/-- Go strconv.Atoi on a character list: optional sign, decimal digits, 64-bit
    signed range check (out-of-range input is reported as an error by Atoi). -/
def goAtoi (cs : List Char) : Option Int :=
  match cs with
  | '+' :: rest =>
      (digitsToNat rest).bind fun n =>
        if n ≤ 9223372036854775807 then some (Int.ofNat n) else none
  | '-' :: rest =>
      (digitsToNat rest).bind fun n =>
        if n ≤ 9223372036854775808 then some (-(Int.ofNat n)) else none
  | _ =>
      (digitsToNat cs).bind fun n =>
        if n ≤ 9223372036854775807 then some (Int.ofNat n) else none

/-- Exact cause text used by parseVersion for malformed version strings. -/
def msgMustBeXYZ : String := "MongoDB version number must be in the form x.y.z"

/-- Exact cause text used by parseVersion for versions before 3.2. -/
def msgOnly32Plus : String := "Only Mongo version 3.2 and above are supported"

/-- mongobin parseVersion: split the version string on dots, require at least
    three components, parse each of the first three as an integer, and reject
    versions before 3.2 (from downloadSpec.go). -/
def parseVersion (version : String) : Except String (List Int) :=
  let versionParts := splitCharsOn '.' version.toList
  if versionParts.length < 3 then
    .error msgMustBeXYZ
  else
    match versionParts with
    | p0 :: p1 :: p2 :: _ =>
      match goAtoi p0 with
      | none => .error "Could not parse major version"
      | some majorVersion =>
        match goAtoi p1 with
        | none => .error "Could not parse minor version"
        | some minorVersion =>
          match goAtoi p2 with
          | none => .error "Could not parse patch version"
          | some patchVersion =>
            if majorVersion < 3 ∨ (majorVersion = 3 ∧ minorVersion < 2) then
              .error msgOnly32Plus
            else
              .ok [majorVersion, minorVersion, patchVersion]
    | _ => .error msgMustBeXYZ

/-- mongobin versionGTE on three-component versions (every Go call site passes
    slices of length three; other shapes do not occur). -/
def versionGTE (a b : List Int) : Bool :=
  match a, b with
  | a0 :: a1 :: a2 :: _, b0 :: b1 :: b2 :: _ =>
    if a0 > b0 then true
    else if a0 < b0 then false
    else if a1 > b1 then true
    else if a1 < b1 then false
    else a2 ≥ b2
  | _, _ => false

/-- mongobin osNameFromUbuntuRelease, translated clause for clause from
    downloadSpec.go. -/
def osNameFromUbuntuRelease (majorVersion : Int) (mongoVersion : List Int) : String :=
  if majorVersion ≥ 22 ∧ versionGTE mongoVersion [4, 0, 1] then "ubuntu2204"
  else if majorVersion ≥ 20 ∧ versionGTE mongoVersion [4, 0, 1] then "ubuntu2004"
  else if majorVersion ≥ 18 ∧ versionGTE mongoVersion [4, 0, 1] then "ubuntu1804"
  else if majorVersion ≥ 16 ∧ versionGTE mongoVersion [3, 2, 7] then "ubuntu1604"
  else if majorVersion ≥ 14 then "ubuntu1404"
  else ""

/-- Numeric (lexicographic) order on three-component versions, used to state
    the spec phrase "numerically below 3.2.0". -/
def versionLtNum (a b : List Int) : Prop :=
  match a, b with
  | [a0, a1, a2], [b0, b1, b2] =>
      a0 < b0 ∨ (a0 = b0 ∧ (a1 < b1 ∨ (a1 = b1 ∧ a2 < b2)))
  | _, _ => False

instance (a b : List Int) : Decidable (versionLtNum a b) := by
  unfold versionLtNum
  split <;> infer_instance

/-- mongobin DownloadSpec (downloadSpec.go). -/
structure DownloadSpec where
  Version : String
  Platform : String
  SSLBuildNeeded : Bool
  Arch : String
  OSName : String
deriving Repr, DecidableEq

/-- mongobin DownloadSpec.GetDownloadURL (downloadURL.go): assemble the archive
    basename and join it to the fastdl host path. -/
def DownloadSpec.GetDownloadURL (spec : DownloadSpec) : String :=
  let archiveName := "mongodb-"
  let archiveName :=
    if spec.Platform == "linux" then
      let archiveName := archiveName ++ "linux-" ++ spec.Arch ++ "-"
      let archiveName :=
        if spec.OSName ≠ "" then archiveName ++ spec.OSName ++ "-" else archiveName
      archiveName ++ spec.Version ++ ".tgz"
    else
      let archiveName :=
        if spec.SSLBuildNeeded then archiveName ++ "osx-ssl-" else archiveName ++ "macos-"
      archiveName ++ spec.Arch ++ "-" ++ spec.Version ++ ".tgz"
  "https://fastdl.mongodb.org/" ++ spec.Platform ++ "/" ++ archiveName

/-- Characters the cache keeps unchanged in a directory name
    (Go regular expression [^a-zA-Z0-9_-] marks everything else unsafe). -/
def filenameSafeChar (c : Char) : Bool :=
  (97 ≤ c.toNat && c.toNat ≤ 122) || (65 ≤ c.toNat && c.toNat ≤ 90) ||
  (48 ≤ c.toNat && c.toNat ≤ 57) || c == '_' || c == '-'

/-- mongobin sanitizeFilename: replace every unsafe character with an underscore. -/
def sanitizeFilename (cs : List Char) : List Char :=
  cs.map (fun c => if filenameSafeChar c then c else '_')

/-- Rest of a character list after the first "://", if any. -/
def dropThroughSchemeSep : List Char → Option (List Char)
  | ':' :: '/' :: '/' :: rest => some rest
  | _ :: rest => dropThroughSchemeSep rest
  | [] => none

/-- Path component of a URL: models net/url.Parse followed by .Path for the
    absolute http(s) URLs without query or fragment that this repository
    builds and accepts (skip the scheme, then the authority up to the
    first slash). -/
def urlPathChars (cs : List Char) : List Char :=
  match dropThroughSchemeSep cs with
  | none => cs
  | some rest => rest.dropWhile (fun c => c ≠ '/')

/-- Go path.Base: last path element after trimming trailing slashes, with the
    documented degenerate cases. -/
def pathBase (cs : List Char) : List Char :=
  if cs.isEmpty then ['.']
  else
    let dropped := cs.reverse.dropWhile (fun c => c == '/')
    if dropped.isEmpty then ['/']
    else (dropped.takeWhile (fun c => c != '/')).reverse

/-- mongobin directoryNameForURL: sanitized URL basename, an underscore, and
    the first 10 hex characters of the sha256 of the whole URL (url.Parse
    cannot fail on the URL shapes this repository produces). -/
def directoryNameForURL (urlStr : String) : String :=
  let hash := sha256First10 urlStr
  let basename := String.mk (sanitizeFilename (pathBase (urlPathChars urlStr.toList)))
  basename ++ "_" ++ hash

/-- Go strings.ToLower restricted to ASCII (every classifier pattern and every
    log line of interest here is ASCII). -/
def goToLowerChar (c : Char) : Char :=
  if 65 ≤ c.toNat && c.toNat ≤ 90 then Char.ofNat (c.toNat + 32) else c

/-- ASCII lowercasing of a string (Go: strings.ToLower). -/
def goToLower (s : String) : String :=
  String.mk (s.toList.map goToLowerChar)

/-- Does pat occur in s starting at index i. -/
def matchAt (pat s : List Char) (i : Nat) : Bool :=
  pat.isPrefixOf (s.drop i)

/-- Does pat occur anywhere in s (Go regexp.MatchString for a literal pattern). -/
def containsPat (s pat : List Char) : Bool :=
  (List.range (s.length + 1)).any (fun i => matchAt pat s i)

/-- Go regexp MatchString for the pattern "data directory .*? not found":
    an occurrence of "data directory " followed, anywhere later, by
    " not found" (log lines carry no newline, so dot matches every char). -/
def matchesDataDirNotFound (s : List Char) : Bool :=
  (List.range (s.length + 1)).any fun i =>
    matchAt "data directory ".toList s i &&
    (List.range (s.length + 1)).any fun k =>
      matchAt " not found".toList s (i + 15 + k)

/-- First index at which pat occurs in s. -/
def firstIndexOfPat (s pat : List Char) : Option Nat :=
  (List.range (s.length + 1)).find? (fun i => matchAt pat s i)

/-- Is there a decimal digit at or after index i. -/
def digitAtOrAfter (s : List Char) (i : Nat) : Bool :=
  (s.drop i).any isDigitChar

/-- Greatest index p, at or after base, at which "port" occurs with some digit
    after it (the position the greedy dot-star of the ready pattern selects). -/
def lastPortWithDigit (s : List Char) (base : Nat) : Option Nat :=
  ((List.range (s.length + 1)).filter
    (fun p => decide (base ≤ p) && matchAt "port".toList s p && digitAtOrAfter s (p + 4))).getLast?

/-- Index of the first digit at or after i (i plus the list length when none). -/
def firstDigitIdxFrom (s : List Char) (i : Nat) : Nat :=
  i + (s.drop i).findIdx isDigitChar

/-- Maximal digit run starting at index i. -/
def digitRunAt (s : List Char) (i : Nat) : List Char :=
  (s.drop i).takeWhile isDigitChar

/-- Submatch capture of the readiness pattern (Go regexp
    "waiting for connections.*port" then non-digits then a captured digit run,
    with leftmost-first semantics: the match starts at the first occurrence of
    the literal, the greedy dot-star selects the last viable "port", the
    greedy non-digit star runs to the first digit after it, and the captured
    digit run is maximal). -/
def readyCapture (s : List Char) : Option (List Char) :=
  match firstIndexOfPat s "waiting for connections".toList with
  | none => none
  | some i =>
    match lastPortWithDigit s (i + 23) with
    | none => none
    | some p => some (digitRunAt s (firstDigitIdxFrom s (p + 4)))

/-- A message sent by the stdout handler: a port number on the port channel or
    an error on the error channel. -/
inductive StartupMsg where
  | port (n : Int)
  | err (e : String)
deriving Repr, DecidableEq

/-- The startup classification of one stdout line: the body of the
    haveSentMessage-guarded if/else chain of stdoutHandler (memongo.go),
    returning the message that chain would send for this line, if any. -/
def classifyLine (line : String) : Option StartupMsg :=
  let downcaseLine := goToLower line
  let dc := downcaseLine.toList
  match readyCapture dc with
  | some cap =>
      match goAtoi cap with
      | some n => some (.port n)
      | none => some (.err ("could not parse port from mongod log line: " ++ downcaseLine))
  | none =>
      if containsPat dc "addr already in use".toList then
        some (.err "mongod startup failed, address in use")
      else if containsPat dc "mongod already running".toList then
        some (.err "mongod startup failed, already running")
      else if containsPat dc "mongod permission denied".toList then
        some (.err "mongod startup failed, permission denied")
      else if matchesDataDirNotFound dc then
        some (.err "mongod startup failed, data directory not found")
      else if containsPat dc "shutting down with code".toList then
        some (.err "mongod startup failed, server shut down")
      else none

/-- The generic failure sent when the stream ends before any rule matched. -/
def genericExitMsg : String := "mongod exited before startup completed"

/-- One scanner iteration of stdoutHandler: when no terminal message has been
    sent yet, classify the line and send the resulting message, if any
    (relaying to the logger has no bearing on classification). -/
def handlerStep (acc : Bool × List StartupMsg) (line : String) : Bool × List StartupMsg :=
  if acc.1 then acc
  else
    match classifyLine line with
    | some m => (true, acc.2 ++ [m])
    | none => acc

/-- The stdout handler goroutine over the whole stream (memongo.go
    stdoutHandler): scan each line in order, then send the generic failure if
    nothing was sent. Returns every message sent to the two channels, in order. -/
def stdoutHandlerRun (lines : List String) : List StartupMsg :=
  let res := lines.foldl handlerStep (false, [])
  if res.1 then res.2 else res.2 ++ [.err genericExitMsg]

/-- Rule 1 of the spec's ordered readiness table: ready-with-port (a
    non-numeric or out-of-range capture is itself a startup failure). -/
def ruleReady (downcaseLine : String) : Option StartupMsg :=
  match readyCapture downcaseLine.toList with
  | some cap =>
      match goAtoi cap with
      | some n => some (.port n)
      | none => some (.err ("could not parse port from mongod log line: " ++ downcaseLine))
  | none => none

/-- Rule 2: address in use. -/
def ruleAddrInUse (downcaseLine : String) : Option StartupMsg :=
  if containsPat downcaseLine.toList "addr already in use".toList then
    some (.err "mongod startup failed, address in use")
  else none

/-- Rule 3: already running. -/
def ruleAlreadyRunning (downcaseLine : String) : Option StartupMsg :=
  if containsPat downcaseLine.toList "mongod already running".toList then
    some (.err "mongod startup failed, already running")
  else none

/-- Rule 4: permission denied. -/
def rulePermissionDenied (downcaseLine : String) : Option StartupMsg :=
  if containsPat downcaseLine.toList "mongod permission denied".toList then
    some (.err "mongod startup failed, permission denied")
  else none

/-- Rule 5: data directory not found. -/
def ruleDataDirNotFound (downcaseLine : String) : Option StartupMsg :=
  if matchesDataDirNotFound downcaseLine.toList then
    some (.err "mongod startup failed, data directory not found")
  else none

/-- Rule 6: shutting down. -/
def ruleShuttingDown (downcaseLine : String) : Option StartupMsg :=
  if containsPat downcaseLine.toList "shutting down with code".toList then
    some (.err "mongod startup failed, server shut down")
  else none

/-- The spec's readiness rule table, in its declared priority order. -/
def ruleTable : List (String → Option StartupMsg) :=
  [ruleReady, ruleAddrInUse, ruleAlreadyRunning, rulePermissionDenied,
   ruleDataDirNotFound, ruleShuttingDown]

/-- First-match evaluation of an ordered rule table on a downcased line. -/
def firstRuleMatch (rules : List (String → Option StartupMsg)) (downcaseLine : String) :
    Option StartupMsg :=
  rules.findSome? (fun r => r downcaseLine)

/-- The failures a Server.Stop call can encounter, as error text (none =
    the step succeeds): the environment Stop runs against. -/
structure StopEnv where
  killServerErr : Option String
  killWatcherErr : Option String
  removeDirErr : Option String
deriving Repr, DecidableEq

/-- Observable outcome of Server.Stop: which cleanup steps were attempted and
    which warnings were logged (Stop returns nothing and raises nothing). -/
structure StopTrace where
  serverKillAttempted : Bool
  watcherKillAttempted : Bool
  removeDirAttempted : Bool
  warnings : List String
deriving Repr, DecidableEq

/-- memongo Server.Stop (memongo.go): kill the server process, on error log a
    warning and return; kill the watcher process, on error log and return;
    remove the data directory, on error log and return. -/
def serverStop (env : StopEnv) : StopTrace :=
  match env.killServerErr with
  | some e => ⟨true, false, false, ["error stopping mongod process: " ++ e]⟩
  | none =>
    match env.killWatcherErr with
    | some e => ⟨true, true, false, ["error stopping watcher process: " ++ e]⟩
    | none =>
      match env.removeDirErr with
      | some e => ⟨true, true, true, ["error removing data directory: " ++ e]⟩
      | none => ⟨true, true, true, []⟩

/-- Results of the four replica bootstrap steps (none = success) and whether
    replica mode was requested: the environment of the post-readiness phase of
    StartWithOptions. -/
structure ReplicaEnv where
  shouldUseReplica : Bool
  connectErr : Option String
  pingErr : Option String
  initErr : Option String
  disconnectErr : Option String
deriving Repr, DecidableEq

/-- Observable outcome of the replica bootstrap section of StartWithOptions
    (memongo.go, after the port has been reported): whether a startup error is
    returned instead of a server, and whether the already-started mongod
    process was killed and its data directory removed on that path. -/
structure ReplicaOutcome where
  failed : Bool
  processKilled : Bool
  dataDirRemoved : Bool
deriving Repr, DecidableEq

/-- The replica bootstrap code of StartWithOptions: connect, ping,
    replSetInitiate, disconnect, strictly in order; each failure logs a
    warning and returns the error directly, with no kill of the mongod
    process and no removal of the data directory. -/
def replicaBootstrap (env : ReplicaEnv) : ReplicaOutcome :=
  if env.shouldUseReplica then
    match env.connectErr with
    | some _ => ⟨true, false, false⟩
    | none =>
      match env.pingErr with
      | some _ => ⟨true, false, false⟩
      | none =>
        match env.initErr with
        | some _ => ⟨true, false, false⟩
        | none =>
          match env.disconnectErr with
          | some _ => ⟨true, false, false⟩
          | none => ⟨false, false, false⟩
  else ⟨false, false, false⟩

/-- Environment of fillDefaults' port and timeout logic: the value of the
    MEMONGO_MONGOD_PORT variable (Go os.Getenv yields the empty string when
    unset) and the result getFreePort would produce. -/
structure PortEnv where
  envPort : String
  freePortRes : Except String Int
deriving Repr

/-- Ten seconds as a Go time.Duration (nanoseconds). -/
def tenSecondsNs : Int := 10000000000

/-- The port and startup-timeout section of Options.fillDefaults (config.go):
    if Port is zero, consult MEMONGO_MONGOD_PORT; if Port is still zero,
    assign a free port and, only inside that branch, default a zero
    StartupTimeout to 10 seconds. Returns the final (port, timeout) pair. -/
def fillPortAndTimeout (env : PortEnv) (port0 : Int) (startupTimeout0 : Int) :
    Except String (Int × Int) :=
  let portRes : Except String Int :=
    if port0 = 0 then
      if env.envPort ≠ "" then
        match goAtoi env.envPort.toList with
        | none => .error "error parsing MEMONGO_MONGOD_PORT"
        | some p => .ok p
      else .ok port0
    else .ok port0
  match portRes with
  | .error e => .error e
  | .ok port1 =>
    if port1 = 0 then
      match env.freePortRes with
      | .error e => .error ("error finding a free port: " ++ e)
      | .ok p =>
          .ok (p, if startupTimeout0 = 0 then tenSecondsNs else startupTimeout0)
    else .ok (port1, startupTimeout0)

/-- How the rename of the scratch file onto its destination ends. Go os.Rename
    reports every failure as a LinkError; other afero backends can produce
    other error types, which is exactly what the errors.As check in saveFile
    distinguishes. -/
inductive RenameOutcome where
  | ok
  | linkError
  | otherError
deriving Repr, DecidableEq

/-- Results of the fallback steps saveFile runs after a LinkError rename
    failure (none = success), together with the rename outcome itself. -/
structure SaveEnv where
  rename : RenameOutcome
  createErr : Option String
  readErr : Option String
  writeErr : Option String
deriving Repr, DecidableEq

/-- A file on disk: its content and its permission bits. -/
structure FileState where
  content : String
  mode : Nat
deriving Repr, DecidableEq

/-- Observable outcome of mongobin saveFile: the error returned (none =
    success), the file at the destination path, and whether the scratch temp
    file is still on disk afterwards. -/
structure SaveResult where
  errMsg : Option String
  dest : Option FileState
  scratchRemains : Bool
deriving Repr, DecidableEq

/-- mongobin saveFile (getOrDownload.go): the tar entry is written to a
    scratch temp file which is chmodded 0755, then renamed onto the
    destination. When the rename fails with a LinkError, the fallback creates
    the destination afresh (0666 default permissions, never chmodded), reads
    the scratch file back and writes its content into the destination; the
    scratch file is not removed on this path. When the rename fails with any
    other error type, the if-block is skipped entirely and saveFile still
    returns nil. The mkdir, temp-file, tar-copy and chmod steps preceding the
    rename are taken as succeeding; the claims under test concern the rename. -/
def saveFile (entryContent : String) (env : SaveEnv) : SaveResult :=
  match env.rename with
  | .ok => ⟨none, some ⟨entryContent, 0o755⟩, false⟩
  | .linkError =>
    match env.createErr with
    | some e => ⟨some ("creating mongod binary: " ++ e), none, true⟩
    | none =>
      match env.readErr with
      | some e => ⟨some ("read file err: " ++ e), some ⟨"", 0o666⟩, true⟩
      | none =>
        match env.writeErr with
        | some e => ⟨some ("error copying mongod binary: " ++ e), some ⟨"", 0o666⟩, true⟩
        | none => ⟨none, some ⟨entryContent, 0o666⟩, true⟩
  | .otherError => ⟨none, none, true⟩

/-- Does s end with pat (Go strings.HasSuffix). -/
def goHasSuffix (s pat : List Char) : Bool :=
  pat.reverse.isPrefixOf s.reverse

/-- The filesystem state the cache logic observes: existing paths, each with
    its modification time. -/
def FS := List (String × Nat)

/-- Does a path exist (afero Afs.Exists). -/
def fsExists (fs : FS) (p : String) : Bool :=
  fs.any (fun e => e.1 == p)

/-- Create or overwrite a path with a fresh modification time. -/
def fsSet (fs : FS) (p : String) (t : Nat) : FS :=
  (p, t) :: fs.filter (fun e => e.1 != p)

/-- Modification time of a path, if it exists. -/
def fsMTime (fs : FS) (p : String) : Option Nat :=
  (fs.find? (fun e => e.1 == p)).map (fun e => e.2)

/-- Everything outside the filesystem that one GetOrDownloadMongod call can
    observe: the HTTP result, the archive's entry names, the content of the
    mongod entry, the save-step outcomes and the current time. -/
structure CacheEnv where
  httpErr : Option String
  tarEntries : List String
  entryContent : String
  saveEnv : SaveEnv
  now : Nat

/-- Result of one GetOrDownloadMongod call: the returned path or error, the
    filesystem afterwards, and whether the network was touched. -/
structure CacheCallResult where
  res : Except String String
  fs : FS
  networkUsed : Bool

/-- First archive entry whose name ends in bin/mongod (the extraction loop's
    search; earlier entries are skipped, a missing entry is a fatal error). -/
def findMongodEntry (entries : List String) : Option String :=
  entries.find? (fun n => goHasSuffix n.toList "bin/mongod".toList)

/-- mongobin GetOrDownloadMongod (getOrDownload.go, single-URL variant):
    compute the cache directory from the URL, return the cached mongod path
    immediately when it exists, otherwise download the archive, locate the
    bin/mongod entry and save it as filepath.Base(entry) - that is, mongod -
    inside the cache directory via saveFile. The temp-file and gzip/tar setup
    steps are taken as succeeding. -/
def getOrDownloadMongod (env : CacheEnv) (fs : FS) (urlStr cachePath : String) :
    CacheCallResult :=
  let dirname := directoryNameForURL urlStr
  let dirPath := cachePath ++ "/" ++ dirname
  let mongodPath := dirPath ++ "/" ++ "mongod"
  if fsExists fs mongodPath then
    ⟨.ok mongodPath, fs, false⟩
  else
    match env.httpErr with
    | some e => ⟨.error ("error getting tarball from " ++ urlStr ++ ": " ++ e), fs, true⟩
    | none =>
      match findMongodEntry env.tarEntries with
      | none => ⟨.error ("did not find a mongod binary in the tar from " ++ urlStr), fs, true⟩
      | some entry =>
        let destPath := dirPath ++ "/" ++ String.mk (pathBase entry.toList)
        let sres := saveFile env.entryContent env.saveEnv
        let fs2 := match sres.dest with
          | some _ => fsSet fs destPath env.now
          | none => fs
        match sres.errMsg with
        | some e => ⟨.error e, fs2, true⟩
        | none => ⟨.ok mongodPath, fs2, true⟩

/-- mongobin MongoPaths: the two binary paths handed back to config. -/
structure MongoPaths where
  Mongod : String
  Mongosh : String
deriving Repr, DecidableEq

/-- Observable placement behaviour of the two-URL GetOrDownloadMongod
    variant: the directory each requested archive is extracted into, and the
    returned paths. -/
structure PairPlacement where
  mongodExtractedTo : Option String
  mongoshExtractedTo : Option String
  paths : MongoPaths
deriving Repr, DecidableEq

/-- The two-URL GetOrDownloadMongod variant (getOrDownload.go with a mongosh
    URL): a single cache directory name is computed from the mongod URL when
    that is nonempty and from the mongosh URL otherwise, and both requested
    archives are extracted into that one directory. On a full cache hit (all
    required files present, force unset) nothing is extracted. -/
def getOrDownloadMongodPair (urlStr mongoshUrl cachePath : String) (cacheHit : Bool) :
    PairPlacement :=
  let urlToUse := if urlStr ≠ "" then urlStr else mongoshUrl
  let dirname := directoryNameForURL urlToUse
  let dirPath := cachePath ++ "/" ++ dirname
  let paths : MongoPaths := ⟨dirPath ++ "/" ++ "bin/mongod", dirPath ++ "/" ++ "bin/mongosh"⟩
  if cacheHit then ⟨none, none, paths⟩
  else
    ⟨if urlStr ≠ "" then some dirPath else none,
     if mongoshUrl ≠ "" then some dirPath else none,
     paths⟩

/-- The DownloadSpec of the spec's concrete osx scenario: version 4.0.5,
    platform osx, architecture x86_64, SSL build needed. -/
def osxSpec405 : DownloadSpec :=
  { Version := "4.0.5", Platform := "osx", SSLBuildNeeded := true, Arch := "x86_64", OSName := "" }

/-- C8: for the {4.0.5, osx, x86_64, ssl} spec, GetDownloadURL produces the
    URL whose basename is mongodb-osx-ssl-x86_64-4.0.5.tgz, and the cache
    directory name computed from that URL (sanitized basename plus the first
    10 hex characters of its sha256) is
    mongodb-osx-ssl-x86_64-4_0_5_tgz_d50ef2155b. -/
theorem c8_concrete_url_and_cache_dir :
    osxSpec405.GetDownloadURL = "https://fastdl.mongodb.org/osx/mongodb-osx-ssl-x86_64-4.0.5.tgz"
    ∧ String.mk (pathBase (urlPathChars osxSpec405.GetDownloadURL.toList))
        = "mongodb-osx-ssl-x86_64-4.0.5.tgz"
    ∧ directoryNameForURL osxSpec405.GetDownloadURL
        = "mongodb-osx-ssl-x86_64-4_0_5_tgz_d50ef2155b" := by
  refine ⟨by decide, by decide, by decide⟩

/-- C4 (code bug): osNameFromUbuntuRelease resolves an Ubuntu 22.04 host with
    server version 4.0.5 to ubuntu2204 - not the ubuntu1804 fallback that the
    claim, the spec and the repo's own TestMakeDownloadSpec (case "ubuntu
    22.04") expect - because the 22.04 and 20.04 table rows gate on version
    4.0.1 instead of the versions at which those builds first exist; the
    20.04 host misresolves the same way. -/
theorem c4_ubuntu_fallback_evaluation :
    osNameFromUbuntuRelease 22 [4, 0, 5] = "ubuntu2204"
    ∧ osNameFromUbuntuRelease 20 [4, 0, 5] = "ubuntu2004"
    ∧ osNameFromUbuntuRelease 22 [4, 0, 5] ≠ "ubuntu1804" := by
  refine ⟨by decide, by decide, by decide⟩

/-- C2 counterexample: when killing the server process fails, Stop logs the
    warning and returns at once, never attempting the watcher kill or the
    data-directory removal - refuting the claim that a failing step does not
    prevent the later steps from being attempted. -/
theorem c2_counterexample_early_return :
    (serverStop ⟨some "operation not permitted", none, none⟩).watcherKillAttempted = false
    ∧ (serverStop ⟨some "operation not permitted", none, none⟩).removeDirAttempted = false
    ∧ (serverStop ⟨some "operation not permitted", none, none⟩).warnings
        = ["error stopping mongod process: operation not permitted"] := by
  refine ⟨by decide, by decide, by decide⟩

/-- C2 amended: Stop attempts the three cleanup steps in order and reports
    each failure only by logging a warning (never by raising), but a failing
    step makes Stop return immediately, so a later step is attempted exactly
    when every earlier step succeeded. -/
theorem c2_stop_steps_amended :
    (∀ env : StopEnv, (serverStop env).serverKillAttempted = true)
    ∧ (∀ env : StopEnv, (serverStop env).watcherKillAttempted = true ↔ env.killServerErr = none)
    ∧ (∀ env : StopEnv, (serverStop env).removeDirAttempted = true ↔
        env.killServerErr = none ∧ env.killWatcherErr = none)
    ∧ (∀ env : StopEnv, ∀ e : String, env.killServerErr = some e →
        (serverStop env).warnings = ["error stopping mongod process: " ++ e])
    ∧ (∀ env : StopEnv, ∀ e : String, env.killServerErr = none → env.killWatcherErr = some e →
        (serverStop env).warnings = ["error stopping watcher process: " ++ e])
    ∧ (∀ env : StopEnv, ∀ e : String, env.killServerErr = none → env.killWatcherErr = none →
        env.removeDirErr = some e →
        (serverStop env).warnings = ["error removing data directory: " ++ e]) := by
  refine ⟨?_, ?_, ?_, ?_, ?_, ?_⟩
  · rintro ⟨a, b, c⟩
    cases a <;> cases b <;> cases c <;> simp [serverStop]
  · rintro ⟨a, b, c⟩
    cases a <;> cases b <;> cases c <;> simp [serverStop]
  · rintro ⟨a, b, c⟩
    cases a <;> cases b <;> cases c <;> simp [serverStop]
  · rintro ⟨a, b, c⟩ e he
    cases he
    simp [serverStop]
  · rintro ⟨a, b, c⟩ e ha hb
    cases ha
    cases hb
    simp [serverStop]
  · rintro ⟨a, b, c⟩ e ha hb hc
    cases ha
    cases hb
    cases hc
    simp [serverStop]

/-- Witness for the amended C2 statement at a concrete environment: a failing
    watcher kill after a successful server kill logs exactly the watcher
    warning. -/
theorem c2_stop_steps_amended_witness :
    (serverStop ⟨none, some "kill failed", none⟩).warnings
      = ["error stopping watcher process: " ++ "kill failed"] :=
  c2_stop_steps_amended.2.2.2.2.1 ⟨none, some "kill failed", none⟩ "kill failed" rfl rfl

/-- C3 (code bug): with replica mode requested and the liveness ping failing,
    the post-readiness bootstrap of StartWithOptions returns a startup error
    while the already-started mongod process is not killed and the scratch
    data directory is not removed - although every pre-readiness failure path
    of the same function kills the process and removes the directory, and the
    spec requires that cleanup in every startup-error case. -/
theorem c3_replica_failure_skips_cleanup :
    replicaBootstrap ⟨true, none, some "ping timeout", none, none⟩
      = ⟨true, false, false⟩
    ∧ (replicaBootstrap ⟨true, none, some "ping timeout", none, none⟩).processKilled = false
    ∧ (replicaBootstrap ⟨true, none, some "ping timeout", none, none⟩).dataDirRemoved = false := by
  refine ⟨by decide, by decide, by decide⟩

/-- C5 counterexample: after a LinkError rename failure the fallback leaves
    the scratch file behind and creates the destination with the 0666 default
    mode (no execute bit), and a rename failure of any other error type is
    swallowed - saveFile returns success - all three contradicting the claim. -/
theorem c5_counterexample_rename_fallback :
    (saveFile "mongod-binary" ⟨.linkError, none, none, none⟩).scratchRemains = true
    ∧ ((saveFile "mongod-binary" ⟨.linkError, none, none, none⟩).dest.map FileState.mode)
        = some 0o666
    ∧ (saveFile "mongod-binary" ⟨.otherError, none, none, none⟩).errMsg = none := by
  refine ⟨by decide, by decide, by decide⟩

/-- C5 amended: a successful rename moves the 0755 scratch file into place;
    when the rename fails with a LinkError and the fallback create/read/write
    steps succeed, saveFile succeeds and the entry content reaches the
    destination, but with the 0666 default mode and with the scratch file
    left on disk; a rename failure of any other error type is swallowed,
    saveFile succeeding with no file at the destination. -/
theorem c5_saveFile_amended (c : String) (env : SaveEnv)
    (hc : env.createErr = none) (hr : env.readErr = none) (hw : env.writeErr = none) :
    (env.rename = .ok → saveFile c env = ⟨none, some ⟨c, 0o755⟩, false⟩)
    ∧ (env.rename = .linkError → saveFile c env = ⟨none, some ⟨c, 0o666⟩, true⟩)
    ∧ (env.rename = .otherError → saveFile c env = ⟨none, none, true⟩) := by
  obtain ⟨r, a, b, w⟩ := env
  simp only at hc hr hw
  subst hc
  subst hr
  subst hw
  cases r <;> simp [saveFile]

/-- Witness for the amended C5 statement at a concrete input: the LinkError
    fallback produces a 0666 destination and keeps the scratch file. -/
theorem c5_saveFile_amended_witness :
    saveFile "m" ⟨.linkError, none, none, none⟩
      = ⟨none, some ⟨"m", 0o666⟩, true⟩ :=
  (c5_saveFile_amended "m" ⟨.linkError, none, none, none⟩ rfl rfl rfl).2.1 rfl

/-- C9 counterexample: with both the server-binary URL and the shell URL given
    and distinct, the mongosh archive is extracted into the cache subtree
    named from the mongod URL, not into the subtree named from its own URL,
    and the two distinct URLs share one cache subtree. -/
theorem c9_counterexample_shared_subtree :
    (getOrDownloadMongodPair
        "https://fastdl.mongodb.org/osx/mongodb-osx-ssl-x86_64-4.0.5.tgz"
        "https://downloads.mongodb.com/compass/mongosh-1.1.8-linux-x64.tgz"
        "cache" false).mongoshExtractedTo
      = some ("cache" ++ "/" ++ directoryNameForURL
          "https://fastdl.mongodb.org/osx/mongodb-osx-ssl-x86_64-4.0.5.tgz")
    ∧ directoryNameForURL "https://fastdl.mongodb.org/osx/mongodb-osx-ssl-x86_64-4.0.5.tgz"
        ≠ directoryNameForURL "https://downloads.mongodb.com/compass/mongosh-1.1.8-linux-x64.tgz"
    ∧ (getOrDownloadMongodPair
        "https://fastdl.mongodb.org/osx/mongodb-osx-ssl-x86_64-4.0.5.tgz"
        "https://downloads.mongodb.com/compass/mongosh-1.1.8-linux-x64.tgz"
        "cache" false).mongoshExtractedTo
      = (getOrDownloadMongodPair
        "https://fastdl.mongodb.org/osx/mongodb-osx-ssl-x86_64-4.0.5.tgz"
        "https://downloads.mongodb.com/compass/mongosh-1.1.8-linux-x64.tgz"
        "cache" false).mongodExtractedTo := by
  refine ⟨by decide, by decide, by decide⟩

/-- C9 amended: within one cache-miss call with both URLs nonempty, both
    artifacts are extracted into the single cache subtree whose name is
    derived from the server-binary URL, so the two artifacts share that
    subtree instead of each living under a subtree derived from its own URL. -/
theorem c9_amended_single_subtree (urlStr mongoshUrl cachePath : String)
    (h1 : urlStr ≠ "") (h2 : mongoshUrl ≠ "") :
    (getOrDownloadMongodPair urlStr mongoshUrl cachePath false).mongodExtractedTo
      = some (cachePath ++ "/" ++ directoryNameForURL urlStr)
    ∧ (getOrDownloadMongodPair urlStr mongoshUrl cachePath false).mongoshExtractedTo
      = some (cachePath ++ "/" ++ directoryNameForURL urlStr) := by
  simp [getOrDownloadMongodPair, h1, h2]

/-- Witness for the amended C9 statement at concrete distinct URLs. -/
theorem c9_amended_single_subtree_witness :
    (getOrDownloadMongodPair "https://a/x.tgz" "https://b/y.tgz" "c" false).mongodExtractedTo
      = some ("c" ++ "/" ++ directoryNameForURL "https://a/x.tgz")
    ∧ (getOrDownloadMongodPair "https://a/x.tgz" "https://b/y.tgz" "c" false).mongoshExtractedTo
      = some ("c" ++ "/" ++ directoryNameForURL "https://a/x.tgz") :=
  c9_amended_single_subtree "https://a/x.tgz" "https://b/y.tgz" "c" (by decide) (by decide)

/-- C6 counterexample: Atoi accepts signed components, so "3.2.-1" parses
    successfully into the version (3, 2, -1), which is numerically below
    3.2.0, yet parseVersion returns a parsed version instead of the
    only-3.2-plus failure. -/
theorem c6_counterexample_negative_patch :
    parseVersion "3.2.-1" = .ok [3, 2, -1]
    ∧ versionLtNum [3, 2, -1] [3, 2, 0] := by
  exact ⟨rfl, by decide⟩

/-- C6 amended: every version string with fewer than three dot-separated
    components fails with the exact must-be-x.y.z cause; "3.0.2" fails with
    the exact only-3.2-plus cause; and every successful parse returns exactly
    three components whose (major, minor) pair is at least (3, 2), so every
    version with non-negative components that is numerically below 3.2.0 is
    rejected with the only-3.2-plus cause (a negative patch component can
    still parse, which is what the counterexample exhibits). -/
theorem c6_parse_version_amended :
    (∀ s : String, (splitCharsOn '.' s.toList).length < 3 →
        parseVersion s = .error msgMustBeXYZ)
    ∧ parseVersion "3.0.2" = .error msgOnly32Plus
    ∧ (∀ s : String, ∀ v : List Int, parseVersion s = .ok v →
        ∃ a b c, v = [a, b, c] ∧ (3 < a ∨ (a = 3 ∧ 2 ≤ b))) := by
  refine ⟨?_, rfl, ?_⟩
  · intro s h
    simp only [parseVersion]
    rw [if_pos h]
  · intro s v h
    simp only [parseVersion] at h
    split at h
    · exact absurd h (by simp)
    · split at h
      · split at h
        · exact absurd h (by simp)
        · split at h
          · exact absurd h (by simp)
          · split at h
            · exact absurd h (by simp)
            · split at h
              · exact absurd h (by simp)
              · simp only [Except.ok.injEq] at h
                exact ⟨_, _, _, h.symm, by omega⟩
      · exact absurd h (by simp)

/-- C10: the 10-second default startup timeout is applied only on the path
    where the port is auto-assigned. With an explicitly supplied port the
    pair passes through unchanged, so an unset StartupTimeout stays zero and
    the launch races mongod startup against a zero-duration timeout; with no
    port and no environment override, a free port is assigned and a zero
    StartupTimeout becomes 10 seconds; and any change to the timeout can
    happen only on the free-port path. -/
theorem c10_timeout_default_only_on_auto_port :
    (∀ env : PortEnv, ∀ port0 t0 : Int, port0 ≠ 0 →
        fillPortAndTimeout env port0 t0 = .ok (port0, t0))
    ∧ (∀ env : PortEnv, ∀ p : Int, env.envPort = "" → env.freePortRes = .ok p →
        fillPortAndTimeout env 0 0 = .ok (p, tenSecondsNs))
    ∧ (∀ env : PortEnv, ∀ port0 t0 p t : Int,
        fillPortAndTimeout env port0 t0 = .ok (p, t) → t ≠ t0 →
        port0 = 0 ∧ t0 = 0 ∧ t = tenSecondsNs ∧ env.freePortRes = .ok p) := by
  refine ⟨?_, ?_, ?_⟩
  · intro env port0 t0 h
    simp [fillPortAndTimeout, h]
  · intro env p h1 h2
    simp [fillPortAndTimeout, h1, h2]
  · intro env port0 t0 p t h ht
    simp only [fillPortAndTimeout] at h
    split at h
    · exact absurd h (by simp)
    · rename_i port1 heq
      split at h
      · rename_i hz
        split at h
        · exact absurd h (by simp)
        · rename_i fp hfp
          simp only [Except.ok.injEq, Prod.mk.injEq] at h
          obtain ⟨hp, htq⟩ := h
          have hport0 : port0 = 0 := by
            by_cases hp0 : port0 = 0
            · exact hp0
            · rw [if_neg hp0] at heq
              simp only [Except.ok.injEq] at heq
              omega
          split at htq
          · exact ⟨hport0, by omega, htq.symm, by rw [hfp, hp]⟩
          · exact absurd htq.symm ht
      · rename_i hz
        simp only [Except.ok.injEq, Prod.mk.injEq] at h
        exact absurd h.2.symm ht

/-- Witness for C10 at concrete inputs: an explicit port 5555 keeps the zero
    timeout, while the auto-assigned-port path defaults it to 10 seconds. -/
theorem c10_witness :
    fillPortAndTimeout ⟨"", .ok 27017⟩ 5555 0 = .ok (5555, 0)
    ∧ fillPortAndTimeout ⟨"", .ok 27017⟩ 0 0 = .ok (27017, tenSecondsNs) := by
  refine ⟨?_, ?_⟩
  · exact c10_timeout_default_only_on_auto_port.1 ⟨"", .ok 27017⟩ 5555 0 (by decide)
  · exact c10_timeout_default_only_on_auto_port.2.1 ⟨"", .ok 27017⟩ 27017 rfl rfl

/-- Once a terminal message has been sent, further lines change nothing: the
    haveSentMessage flag suppresses all later classification. -/
theorem foldl_handlerStep_sent (lines : List String) (sent : List StartupMsg) :
    lines.foldl handlerStep (true, sent) = (true, sent) := by
  induction lines with
  | nil => rfl
  | cons l ls ih =>
    simp only [List.foldl_cons]
    rw [show handlerStep (true, sent) l = (true, sent) from rfl]
    exact ih

/-- Lines that match no rule leave the handler state unchanged. -/
theorem foldl_handlerStep_none (lines : List String) (sent : List StartupMsg) :
    (∀ l ∈ lines, classifyLine l = none) →
    lines.foldl handlerStep (false, sent) = (false, sent) := by
  induction lines with
  | nil => intro _; rfl
  | cons l ls ih =>
    intro h
    have hl : classifyLine l = none := h l (by simp)
    simp only [List.foldl_cons]
    rw [show handlerStep (false, sent) l = (false, sent) by simp [handlerStep, hl]]
    exact ih (fun x hx => h x (List.mem_cons_of_mem _ hx))

/-- Over any stream, the handler either never fires a message or fires
    exactly one. -/
theorem foldl_handlerStep_cases (lines : List String) :
    ∀ sent : List StartupMsg,
      lines.foldl handlerStep (false, sent) = (false, sent)
      ∨ ∃ m, lines.foldl handlerStep (false, sent) = (true, sent ++ [m]) := by
  induction lines with
  | nil => intro sent; left; rfl
  | cons l ls ih =>
    intro sent
    simp only [List.foldl_cons]
    cases hl : classifyLine l with
    | some m =>
      rw [show handlerStep (false, sent) l = (true, sent ++ [m]) by simp [handlerStep, hl]]
      rw [foldl_handlerStep_sent]
      exact Or.inr ⟨m, rfl⟩
    | none =>
      rw [show handlerStep (false, sent) l = (false, sent) by simp [handlerStep, hl]]
      exact ih sent

/-- C1: the stdout readiness classifier produces exactly one terminal event
    per launch. Each line is classified exactly by the fixed-priority rule
    table (ready-with-port first, then address-in-use, already-running,
    permission-denied, data-directory-not-found, shutting-down, a
    non-numeric or out-of-range port capture itself a startup failure); the
    first matching line alone determines the event, whatever lines follow;
    and a stream ending with no line matched produces the single generic
    exited-before-startup-completed failure. -/
theorem c1_single_terminal_event_first_match :
    (∀ line : String, classifyLine line = firstRuleMatch ruleTable (goToLower line))
    ∧ (∀ lines : List String, (stdoutHandlerRun lines).length = 1)
    ∧ (∀ pre : List String, ∀ line : String, ∀ post : List String, ∀ m : StartupMsg,
        (∀ l ∈ pre, classifyLine l = none) → classifyLine line = some m →
        stdoutHandlerRun (pre ++ line :: post) = [m])
    ∧ (∀ lines : List String, (∀ l ∈ lines, classifyLine l = none) →
        stdoutHandlerRun lines = [.err genericExitMsg]) := by
  refine ⟨?_, ?_, ?_, ?_⟩
  · intro line
    simp only [classifyLine, firstRuleMatch, ruleTable, List.findSome?_cons, List.findSome?_nil,
               ruleReady, ruleAddrInUse, ruleAlreadyRunning, rulePermissionDenied,
               ruleDataDirNotFound, ruleShuttingDown]
    cases hr : readyCapture (goToLower line).toList with
    | some cap => cases hA : goAtoi cap <;> simp [hA]
    | none =>
      cases h1 : containsPat (goToLower line).toList "addr already in use".toList <;>
      cases h2 : containsPat (goToLower line).toList "mongod already running".toList <;>
      cases h3 : containsPat (goToLower line).toList "mongod permission denied".toList <;>
      cases h4 : matchesDataDirNotFound (goToLower line).toList <;>
      cases h5 : containsPat (goToLower line).toList "shutting down with code".toList <;>
      simp
  · intro lines
    simp only [stdoutHandlerRun]
    rcases foldl_handlerStep_cases lines [] with h | ⟨m, h⟩
    · rw [h]; rfl
    · rw [h]; rfl
  · intro pre line post m hpre hline
    simp only [stdoutHandlerRun, List.foldl_append, List.foldl_cons]
    rw [foldl_handlerStep_none pre [] hpre]
    rw [show handlerStep (false, []) line = (true, [m]) by simp [handlerStep, hline]]
    rw [foldl_handlerStep_sent]
    rfl
  · intro lines h
    simp only [stdoutHandlerRun]
    rw [foldl_handlerStep_none lines [] h]
    rfl

/-- Witness for C1 at a concrete stream: the first matching line (the ready
    line) alone determines the single port event even though a failure line
    follows it, and a stream with no matching line yields the generic
    failure. -/
theorem c1_single_terminal_event_witness :
    stdoutHandlerRun ["starting up",
        "2023-01-01 NETWORK waiting for connections on port 27017",
        "addr already in use"] = [.port 27017]
    ∧ stdoutHandlerRun ["nothing to report"] = [.err genericExitMsg] := by
  constructor
  · exact c1_single_terminal_event_first_match.2.2.1 ["starting up"]
      "2023-01-01 NETWORK waiting for connections on port 27017"
      ["addr already in use"] (.port 27017) (by decide) (by decide)
  · exact c1_single_terminal_event_first_match.2.2.2 ["nothing to report"] (by decide)

/-- Dropping leading slashes from a reversed name that ends in mongod changes
    nothing, because its first character is the final d. -/
theorem dropWhile_slash_mongod (t : List Char) :
    List.dropWhile (fun c => c == '/')
      ('d' :: 'o' :: 'g' :: 'n' :: 'o' :: 'm' :: '/' :: 'n' :: 'i' :: 'b' :: t)
      = 'd' :: 'o' :: 'g' :: 'n' :: 'o' :: 'm' :: '/' :: 'n' :: 'i' :: 'b' :: t := rfl

/-- Taking up to the first slash of a reversed name that ends in /mongod
    yields exactly the reversed mongod. -/
theorem takeWhile_not_slash_mongod (t : List Char) :
    List.takeWhile (fun c => c != '/')
      ('d' :: 'o' :: 'g' :: 'n' :: 'o' :: 'm' :: '/' :: 'n' :: 'i' :: 'b' :: t)
      = ['d', 'o', 'g', 'n', 'o', 'm'] := rfl

/-- The base name of any path ending in bin/mongod is mongod. -/
theorem pathBase_bin_mongod (cs : List Char)
    (h : goHasSuffix cs "bin/mongod".toList = true) :
    pathBase cs = "mongod".toList := by
  unfold goHasSuffix at h
  rw [List.isPrefixOf_iff_prefix] at h
  obtain ⟨t, ht⟩ := h
  have hpat : ("bin/mongod".toList).reverse
      = ['d', 'o', 'g', 'n', 'o', 'm', '/', 'n', 'i', 'b'] := rfl
  rw [hpat] at ht
  simp only [List.cons_append, List.nil_append] at ht
  cases cs with
  | nil => simp at ht
  | cons c cs2 =>
    simp only [pathBase, List.isEmpty_cons]
    rw [if_neg Bool.false_ne_true]
    rw [← ht, dropWhile_slash_mongod]
    simp only [List.isEmpty_cons]
    rw [if_neg Bool.false_ne_true]
    rw [takeWhile_not_slash_mongod]
    rfl

/-- A path just created by fsSet exists. -/
theorem fsExists_fsSet_self (fs : FS) (p : String) (t : Nat) :
    fsExists (fsSet fs p t) p = true := by
  simp [fsExists, fsSet]

/-- A call that finds the mongod file in the cache returns its path at once,
    touching neither the network nor the filesystem. -/
theorem getOrDownloadMongod_hit (env : CacheEnv) (fs : FS) (urlStr cachePath : String)
    (h : fsExists fs (cachePath ++ "/" ++ directoryNameForURL urlStr ++ "/" ++ "mongod") = true) :
    getOrDownloadMongod env fs urlStr cachePath
      = ⟨.ok (cachePath ++ "/" ++ directoryNameForURL urlStr ++ "/" ++ "mongod"), fs, false⟩ := by
  simp only [getOrDownloadMongod]
  rw [if_pos h]

/-- A successful call whose rename was not the silently-swallowed non-link
    failure returns the canonical mongod path and leaves that path existing
    on the resulting filesystem. -/
theorem getOrDownloadMongod_ok_exists (env : CacheEnv) (fs : FS) (urlStr cachePath p : String)
    (h1 : (getOrDownloadMongod env fs urlStr cachePath).res = .ok p)
    (h2 : env.saveEnv.rename ≠ .otherError) :
    p = cachePath ++ "/" ++ directoryNameForURL urlStr ++ "/" ++ "mongod"
    ∧ fsExists (getOrDownloadMongod env fs urlStr cachePath).fs
        (cachePath ++ "/" ++ directoryNameForURL urlStr ++ "/" ++ "mongod") = true := by
  obtain ⟨httpErr, tarEntries, entryContent, saveEnv, now⟩ := env
  obtain ⟨ren, ce, re, we⟩ := saveEnv
  simp only at h2
  by_cases hex : fsExists fs (cachePath ++ "/" ++ directoryNameForURL urlStr ++ "/" ++ "mongod") = true
  · rw [getOrDownloadMongod_hit _ _ _ _ hex] at h1 ⊢
    simp only [Except.ok.injEq] at h1
    exact ⟨h1.symm, hex⟩
  · have hexf : fsExists fs (cachePath ++ "/" ++ directoryNameForURL urlStr ++ "/" ++ "mongod") = false := by
      cases hxx : fsExists fs (cachePath ++ "/" ++ directoryNameForURL urlStr ++ "/" ++ "mongod")
      · rfl
      · exact absurd hxx hex
    simp only [getOrDownloadMongod, hexf, Bool.false_eq_true, if_false] at h1 ⊢
    cases httpErr with
    | some e => simp at h1
    | none =>
      cases hfind : findMongodEntry tarEntries with
      | none =>
        rw [hfind] at h1
        simp at h1
      | some entry =>
        rw [hfind] at h1
        have hfind2 : List.find? (fun n => goHasSuffix n.toList "bin/mongod".toList) tarEntries
            = some entry := hfind
        have hsuffix : goHasSuffix entry.toList "bin/mongod".toList = true := by
          have h0 := List.find?_some
            (p := fun (n : String) => goHasSuffix n.toList "bin/mongod".toList) hfind2
          simpa using h0
        have hbase : String.mk (pathBase entry.toList) = "mongod" := by
          rw [pathBase_bin_mongod entry.toList hsuffix]
          rfl
        dsimp only at h1 ⊢
        rw [hbase] at h1 ⊢
        cases ren with
        | otherError => exact absurd rfl h2
        | ok =>
          simp only [saveFile] at h1 ⊢
          simp only [Except.ok.injEq] at h1
          exact ⟨h1.symm, fsExists_fsSet_self _ _ _⟩
        | linkError =>
          cases ce with
          | some e => simp [saveFile] at h1
          | none =>
            cases re with
            | some e => simp [saveFile] at h1
            | none =>
              cases we with
              | some e => simp [saveFile] at h1
              | none =>
                simp only [saveFile] at h1 ⊢
                simp only [Except.ok.injEq] at h1
                exact ⟨h1.symm, fsExists_fsSet_self _ _ _⟩

/-- C7: cache idempotence. When a call to GetOrDownloadMongod succeeds (and
    its rename was not the silently-swallowed non-link failure, which cannot
    arise with os.Rename), a second call with the same URL and cache root
    returns the identical path, touches no network, and leaves the
    filesystem - in particular every cached file's modification time -
    unchanged. -/
theorem c7_cache_idempotence (env env2 : CacheEnv) (fs : FS) (urlStr cachePath p : String)
    (h1 : (getOrDownloadMongod env fs urlStr cachePath).res = .ok p)
    (h2 : env.saveEnv.rename ≠ .otherError) :
    (getOrDownloadMongod env2 (getOrDownloadMongod env fs urlStr cachePath).fs urlStr cachePath).res
        = .ok p
    ∧ (getOrDownloadMongod env2 (getOrDownloadMongod env fs urlStr cachePath).fs urlStr cachePath).fs
        = (getOrDownloadMongod env fs urlStr cachePath).fs
    ∧ (getOrDownloadMongod env2 (getOrDownloadMongod env fs urlStr cachePath).fs urlStr cachePath).networkUsed
        = false
    ∧ (∀ q : String,
        fsMTime (getOrDownloadMongod env2 (getOrDownloadMongod env fs urlStr cachePath).fs urlStr cachePath).fs q
          = fsMTime (getOrDownloadMongod env fs urlStr cachePath).fs q) := by
  obtain ⟨hp, hex⟩ := getOrDownloadMongod_ok_exists env fs urlStr cachePath p h1 h2
  rw [getOrDownloadMongod_hit env2 _ urlStr cachePath hex]
  exact ⟨by rw [hp], rfl, rfl, fun q => rfl⟩

/-- Concrete environment for the C7 witness: a successful download whose
    archive contains a bin/mongod entry. -/
def witnessCacheEnv : CacheEnv :=
  ⟨none, ["mongodb-x/bin/mongod"], "binary-bytes", ⟨.ok, none, none, none⟩, 42⟩

/-- Witness for C7 at a concrete environment: after a first call populates an
    empty cache, the second call returns the same path without network access
    and without changing the filesystem. -/
theorem c7_cache_idempotence_witness :
    (getOrDownloadMongod witnessCacheEnv
        (getOrDownloadMongod witnessCacheEnv [] "https://a/x.tgz" "c").fs
        "https://a/x.tgz" "c").res
      = .ok ("c" ++ "/" ++ directoryNameForURL "https://a/x.tgz" ++ "/" ++ "mongod")
    ∧ (getOrDownloadMongod witnessCacheEnv
        (getOrDownloadMongod witnessCacheEnv [] "https://a/x.tgz" "c").fs
        "https://a/x.tgz" "c").fs
      = (getOrDownloadMongod witnessCacheEnv [] "https://a/x.tgz" "c").fs
    ∧ (getOrDownloadMongod witnessCacheEnv
        (getOrDownloadMongod witnessCacheEnv [] "https://a/x.tgz" "c").fs
        "https://a/x.tgz" "c").networkUsed = false := by
  have h := c7_cache_idempotence witnessCacheEnv witnessCacheEnv [] "https://a/x.tgz" "c"
    ("c" ++ "/" ++ directoryNameForURL "https://a/x.tgz" ++ "/" ++ "mongod")
    rfl (by decide)
  exact ⟨h.1, h.2.1, h.2.2.1⟩
